import Mathlib

/-!
# Verification of the EPIVIZ 4.1 resolution and fallback policy engine

Shallow embedding, in Lean 4, of the serve-time data-resolution and
model-resolution code of the repository:

* `new_api/data/adapters/raw_data.py` and `enhanced_data.py`
  (derivation of `new_cases` / `new_deaths` from cumulative columns),
* `new_api/data/access/manager.py` (`DataAccessManager.get_data`),
* `new_api/models/loaders/registry.py` (`ModelRegistry`),
* `new_api/models/predictors/covid_predictor.py` (`COVIDPredictor`).

Modelling conventions:

* pandas float values are modelled as rationals (`ℚ`); Python's `round`
  (round half to even) is modelled exactly by `pyRound`;
* calendar dates are modelled as integers (days since an arbitrary epoch),
  so "the next calendar day" is `d + 1`;
* file I/O that the code assumes to succeed (reading a pickled artifact at
  a path recorded in the registry) is modelled as total: an artifact is
  identified by its path together with a load sequence number, which makes
  "the identical loaded instance" (reference equality) expressible;
* a trained model object is opaque: its `predict` on a one-row frame is an
  arbitrary function to `Option ℚ` (`none` models an exception), its
  optional `predict_sequence` attribute and LSTM sequence output are
  arbitrary functions of the input window.
-/

/-- Python's built-in `round` on an exact rational: round half to even.
Used because every prediction point stores `round(...)` of its value. -/
def pyRound (q : ℚ) : ℤ :=
  let f := ⌊q⌋
  let r := q - (f : ℚ)
  if r < 1/2 then f
  else if 1/2 < r then f + 1
  else if f % 2 = 0 then f else f + 1

/-! ## Derivation of delta columns from cumulative columns

Both `RawDataAdapter._enrich_data` and `EnhancedDataAdapter._enrich_data`
derive a missing `new_cases` (resp. `new_deaths`) column via

    df = df.sort_values(["country", "date_value"])
    df["new_cases"] = df.groupby("country")["total_cases"].diff().fillna(0)

and a missing cumulative column via `groupby("country")[...].cumsum()`.
`groupby("country")....diff()` acts independently on each country's slice of
the date-sorted frame, so its action is fully described per country: on the
date-ordered list of one country's cumulative values it is the first
difference, with the `NaN` produced at the first row replaced by `0`.
`diffFill0` is that per-country action; `cumsum` is the per-country action
of `.cumsum()`. No clamping of any kind is applied by the source. -/

/-- Per-country action of `groupby("country")[col].diff().fillna(0)` on the
date-ordered values of one country. -/
def diffFill0 : List ℚ → List ℚ
  | [] => []
  | t0 :: ts => 0 :: ts.zipWith (· - ·) (t0 :: ts)

/-- Inclusive prefix sums starting from accumulator `a`. -/
def cumsumFrom (a : ℚ) : List ℚ → List ℚ
  | [] => []
  | x :: xs => (a + x) :: cumsumFrom (a + x) xs

/-- Per-country action of `groupby("country")[col].cumsum()`. -/
def cumsum (xs : List ℚ) : List ℚ := cumsumFrom 0 xs

/-! ## Data model: rows and contexts (`new_api/data/adapters/base.py`)

A table row after normalization and enrichment carries the country, the
date (`date_value`, modelled as an integer day) and the four metric
columns. `DataContext` mirrors the fields of `base.py`'s `DataContext`
that the resolution path reads. -/

/-- One row of a loaded table, after column normalization/enrichment. -/
structure HistRow where
  country : String
  date : ℤ
  total_cases : ℚ
  new_cases : ℚ
  total_deaths : ℚ
  new_deaths : ℚ
  deriving DecidableEq, Repr, Inhabited

/-- Query descriptor passed to every data source (`base.py::DataContext`). -/
structure DataContext where
  country : Option String := none
  countries : List String := []
  start_date : Option ℤ := none
  end_date : Option ℤ := none
  metric : Option String := none
  metrics : List String := []
  required_columns : List String := ["country", "date_value"]
  deriving DecidableEq, Repr, Inhabited

/-- Embeds `DataContext.__init__`: `countries` is derived to include the singular
`country` when only the singular form was given. -/
def mkDataContext (country : Option String) (countries : List String) : DataContext :=
  { country := country
    countries := if countries = [] then (match country with
      | some c => [c]
      | none => []) else countries }

/-! ## `DataAccessManager.get_data` (`new_api/data/access/manager.py`)

The manager iterates its adapter list (kept sorted by descending priority);
for each adapter whose `can_handle(context)` is true it attempts
`load_data(context)`, returning the first success immediately; an exception
is recorded as a failure message and the loop continues; on exhaustion it
raises `DataNotFoundError` carrying the recorded per-adapter failures.
An adapter is embedded by its two capabilities; `load_data` returning
`Except.error` models the adapter throwing. -/

structure Adapter where
  name : String
  priority : ℤ
  canHandle : DataContext → Bool
  loadData : DataContext → Except String (List HistRow)

/-- One recorded failure reason: which adapter threw, and its message
(the source interpolates the adapter name and the exception text into a
French log string). -/
structure AdapterFailure where
  adapterName : String
  msg : String
  deriving DecidableEq, Repr

/-- The adapter loop of `DataAccessManager.get_data`, with the error
accumulator `errors` threaded explicitly. -/
def get_data_aux (ctx : DataContext) :
    List Adapter → List AdapterFailure → Except (List AdapterFailure) (List HistRow)
  | [], errs => .error errs
  | a :: rest, errs =>
    if a.canHandle ctx then
      match a.loadData ctx with
      | .ok t => .ok t
      | .error e => get_data_aux ctx rest (errs ++ [⟨a.name, e⟩])
    else get_data_aux ctx rest errs

/-- Embeds `DataAccessManager.get_data(context)`. -/
def get_data (adapters : List Adapter) (ctx : DataContext) :
    Except (List AdapterFailure) (List HistRow) :=
  get_data_aux ctx adapters []

/-- The failure reasons `get_data` accumulates: one entry per adapter that
was consulted (`can_handle` true) and threw. -/
def failuresOf (adapters : List Adapter) (ctx : DataContext) : List AdapterFailure :=
  adapters.filterMap fun a =>
    if a.canHandle ctx then
      match a.loadData ctx with
      | .error e => some ⟨a.name, e⟩
      | .ok _ => none
    else none

/-- An adapter contributes nothing when it rejects the context or throws. -/
def adapterFails (ctx : DataContext) (a : Adapter) : Prop :=
  a.canHandle ctx = false ∨ ∃ e, a.loadData ctx = .error e

/-! ## `ModelRegistry` (`new_api/models/loaders/registry.py`)

The registry maps, per country, a model kind to the location (path) of the
pickled artifact discovered at startup; `loaded_models` caches loaded
artifacts per `(country, kind)`; `model_metadata` holds the metadata
attached at discovery time. Python dictionaries are embedded as
association lists with shadowing insertion (`alistGet` finds the newest
binding, exactly like a dict updated in place).

`pickle.load` on a registered path is modelled as total (file I/O assumed
to succeed); a loaded artifact is identified by its path together with a
global load sequence number `loadId`, so that two separate loads of the
same path are distinguishable and "returns the identical instance" is
expressible. -/

/-- Dictionary lookup with shadowing (newest binding wins). -/
def alistGet {κ α : Type} [DecidableEq κ] (key : κ) : List (κ × α) → Option α
  | [] => none
  | (k, v) :: rest => if k = key then some v else alistGet key rest

/-- A loaded model artifact: the registry path it was read from plus the
load sequence number of the `pickle.load` call that produced it (distinct
loads yield distinct instances, mirroring reference identity). -/
structure Artifact where
  path : String
  loadId : ℕ
  deriving DecidableEq, Repr

/-- Metadata attached to one discovered model
(`{"created_at": ..., "metrics": {...}}`). -/
structure MetaEntry where
  created_at : String := ""
  metrics : List (String × ℚ) := []
  deriving DecidableEq, Repr

/-- The mutable state of a `ModelRegistry` instance. -/
structure RegState where
  registry : List (String × List (String × String))
  loaded_models : List ((String × String) × Artifact)
  model_metadata : List (String × List (String × MetaEntry))
  loadCount : ℕ := 0
  deriving Repr

/-- Embeds `ModelRegistry.has_model`: `country in self.registry and model_type in
self.registry[country]`. -/
def has_model (st : RegState) (country : String) (model_type : String) : Bool :=
  match alistGet country st.registry with
  | some ms => (alistGet model_type ms).isSome
  | none => false

/-- Embeds `ModelRegistry._get_alternative_model_types`: the fixed alternative-kind
preference table, with the default list for unknown kinds. -/
def get_alternative_model_types (model_type : String) : List String :=
  (alistGet model_type
    [("enhanced", ["lstm", "xgboost", "gradient_boosting", "random_forest"]),
     ("lstm", ["enhanced", "xgboost", "gradient_boosting", "random_forest"]),
     ("xgboost", ["gradient_boosting", "random_forest", "lstm", "enhanced"]),
     ("gradient_boosting", ["xgboost", "random_forest", "lstm"]),
     ("random_forest", ["gradient_boosting", "xgboost", "decision_tree"]),
     ("linear_regression", ["ridge_regression", "lasso_regression"]),
     ("ridge_regression", ["lasso_regression", "linear_regression"]),
     ("lasso_regression", ["ridge_regression", "linear_regression"]),
     ("decision_tree", ["random_forest", "gradient_boosting"])]).getD
    ["xgboost", "gradient_boosting", "random_forest"]

/-- Steps 1-2 of `ModelRegistry.get_model` for a kind: return the cached
artifact if present, else load the artifact from its registry location and
cache it. In the source this is the body executed when
`self.has_model(country, model_type)` holds (or the entry is cached); the
error branch mirrors `_load_model`'s failure and is unreachable from
`get_model`'s call sites. -/
def get_model_direct (st : RegState) (country model_type : String) :
    Except String (Artifact × RegState) :=
  match alistGet (country, model_type) st.loaded_models with
  | some art => .ok (art, st)
  | none =>
    match alistGet country st.registry with
    | some ms =>
      match alistGet model_type ms with
      | some path =>
        let art : Artifact := ⟨path, st.loadCount⟩
        .ok (art, { st with
          loaded_models := ((country, model_type), art) :: st.loaded_models,
          loadCount := st.loadCount + 1 })
      | none => .error ("Erreur lors du chargement du modele: " ++ model_type)
    | none => .error ("Erreur lors du chargement du modele: " ++ model_type)

/-- Embeds `ModelRegistry.get_model(country, model_type)`. The source recurses on
the first alternative kind (or on `"default"`) that `has_model` accepts;
such a recursive call terminates at step 1 or 2 immediately, so the
recursion (depth at most 2) is unrolled here into `get_model_direct`. -/
def get_model (st : RegState) (country : String) (model_type : String) :
    Except String (Artifact × RegState) :=
  match alistGet (country, model_type) st.loaded_models with
  | some art => .ok (art, st)
  | none =>
    if has_model st country model_type then
      get_model_direct st country model_type
    else
      match (get_alternative_model_types model_type).find?
          (fun alt => has_model st country alt) with
      | some alt => get_model_direct st country alt
      | none =>
        if has_model st country "default" then
          get_model_direct st country "default"
        else
          .error ("Aucun modele " ++ model_type ++
            " ou alternative disponible pour " ++ country)

/-- Result of `ModelRegistry.get_model_metrics`: metadata for one kind, or
the whole per-country table when no kind is given. -/
inductive MetricsResult
  | one (m : MetaEntry)
  | all (ms : List (String × MetaEntry))
  deriving DecidableEq, Repr

/-- Embeds `ModelRegistry.get_model_metrics(country, model_type?)`. -/
def get_model_metrics (st : RegState) (country : String)
    (model_type : Option String) : Except String MetricsResult :=
  match alistGet country st.model_metadata with
  | none => .error ("Aucune metadonnee disponible pour " ++ country)
  | some ms =>
    match model_type with
    | some kt =>
      match alistGet kt ms with
      | some m => .ok (.one m)
      | none => .error ("Aucune metadonnee disponible pour " ++ country ++ "/" ++ kt)
    | none => .ok (.all ms)

/-- Embeds `ENHANCED_MODEL_COUNTRIES` from `new_api/core/config.py`. -/
def ENHANCED_MODEL_COUNTRIES : List String :=
  ["France", "US", "Brazil", "Germany", "Italy", "Spain", "United Kingdom", "China"]

/-- Embeds `ModelRegistry.get_enhanced_countries`: countries whose registry entry
has an `"enhanced"` or `"lstm"` kind, then the configured countries present
in the registry and not yet listed, sorted. -/
def get_enhanced_countries (st : RegState) : List String :=
  let base := (st.registry.map Prod.fst).filter
    (fun c => has_model st c "enhanced" || has_model st c "lstm")
  let full := ENHANCED_MODEL_COUNTRIES.foldl
    (fun acc c =>
      if (alistGet c st.registry).isSome && !(acc.contains c) then acc ++ [c]
      else acc)
    base
  full.insertionSort (· ≤ ·)

/-- The cache only holds artifacts for keys the registry knows: the
invariant `get_model` establishes (it caches only under discovered keys). -/
def cache_consistent (st : RegState) : Bool :=
  st.loaded_models.all (fun p => has_model st p.1.1 p.1.2)

/-- Metadata kinds are a subset of the discovered registry kinds: the
invariant `_discover_models` establishes (`_load_model_metadata` is invoked
once per discovered `(country, kind)`). -/
def metadata_subset (st : RegState) : Bool :=
  st.model_metadata.all (fun cm => cm.2.all (fun km => has_model st cm.1 km.1))

/-! ## `COVIDPredictor` (`new_api/models/predictors/covid_predictor.py`)

Feature rows carry the columns `_calculate_features` computes. The
calendar columns (`day_of_week`, `month`, `day`, the `dow_i` one-hots) are
functions of `date_value` alone and are represented by the `date` field
itself. The trailing `replace([inf, -inf], nan).fillna(0)` is reflected in
the zero-guards of `pctChange` and `mortality_rate` (a rational division
by zero is 0 here, the value the replacement produces); NaN/inf
propagation through the intermediate rolling mean of the growth column is
not tracked — those columns are consumed only by the opaque model
function. -/

structure FeatRow where
  date : ℤ
  new_cases : ℚ
  total_cases : ℚ
  new_deaths : ℚ
  total_deaths : ℚ
  new_cases_7d_avg : ℚ
  new_cases_growth : ℚ
  new_cases_growth_7d_avg : ℚ
  mortality_rate : ℚ
  deriving DecidableEq, Repr, Inhabited

/-- Embeds `rolling(window=7, min_periods=1).mean()` at row `i`: the mean of the
last at most 7 values up to and including `i`. -/
def rollingMean7 (xs : List ℚ) (i : ℕ) : ℚ :=
  let w := (xs.take (i + 1)).drop ((i + 1) - 7)
  w.sum / w.length

/-- Embeds `pct_change().fillna(0)` at row `i`, with the division-by-zero case
yielding the 0 that the final inf/NaN replacement produces. -/
def pctChange (xs : List ℚ) (i : ℕ) : ℚ :=
  if i = 0 then 0
  else
    let prev := xs.getD (i - 1) 0
    let cur := xs.getD i 0
    if prev = 0 then 0 else (cur - prev) / prev

/-- Embeds `COVIDPredictor._calculate_features` on the date-ordered recent rows. -/
def calculate_features (rows : List HistRow) : List FeatRow :=
  let newCs := rows.map (·.new_cases)
  let growthCol := (List.range rows.length).map (pctChange newCs)
  rows.enum.map (fun p =>
    { date := p.2.date
      new_cases := p.2.new_cases
      total_cases := p.2.total_cases
      new_deaths := p.2.new_deaths
      total_deaths := p.2.total_deaths
      new_cases_7d_avg := rollingMean7 newCs p.1
      new_cases_growth := pctChange newCs p.1
      new_cases_growth_7d_avg := rollingMean7 growthCol p.1
      mortality_rate :=
        if p.2.total_cases = (0 : ℚ) then 0
        else p.2.total_deaths / p.2.total_cases })

/-- One prediction point (`date` kept as an integer day; the stored numeric
fields go through Python `round`). `estimation` is true exactly when the
point came from the heuristic fallback (success-path points carry no
`estimation` key, i.e. false). -/
structure PredPoint where
  date : ℤ
  new_cases : ℤ
  total_cases : ℤ
  lower_bound : ℤ
  upper_bound : ℤ
  estimation : Bool := false
  deriving DecidableEq, Repr, Inhabited

/-- An opaque trained model object. `predictDay` is `model.predict` on a
one-row frame (`none` models the call raising); `predictSeq` is the
optional `predict_sequence` attribute (a function of the 14-day window and
the horizon, `none` inside models it raising); `lstmOut` is present when
the model's class name contains "lstm", and gives the raw sequence output
`model.predict(X_sequence)[0]` as a function of the window (`none` inside
models the call raising; `_prepare_sequence_data`'s normalization is
absorbed into this opaque function). -/
structure Model where
  predictDay : FeatRow → Option ℚ
  predictSeq : Option (List FeatRow → ℕ → Option (List PredPoint)) := none
  lstmOut : Option (List FeatRow → Option (List ℚ)) := none

/-- Embeds pandas `.tail(n)` of pandas: the last `n` rows. -/
def takeLast {α : Type} (n : ℕ) (l : List α) : List α := l.drop (l.length - n)

/-- Embeds `.max()` over a list of dates (only used on nonempty data). -/
def maxDateZ : List ℤ → ℤ
  | [] => 0
  | d :: rest => rest.foldl max d

/-- Embeds `data["date_value"].max()`. -/
def maxDate (feats : List FeatRow) : ℤ := maxDateZ (feats.map (·.date))

/-- Mutable state of the day-by-day loop of
`_generate_standard_predictions`: current date, running total, running
new-cases value and the mutated feature row. -/
structure StdState where
  date : ℤ
  total : ℚ
  cur : ℚ
  feat : FeatRow
  deriving Repr

/-- One iteration of the standard prediction loop. `lastNew` is
`last_new_cases`, read once before the loop and never reassigned. In the
exception branch neither `current_new_cases` nor the feature row (beyond
its calendar fields) is updated — only the running total is. -/
def std_step (m : Model) (lastNew : ℚ) (s : StdState) : PredPoint × StdState :=
  let date1 := s.date + 1
  let feat1 := { s.feat with date := date1 }
  match m.predictDay feat1 with
  | some raw =>
    let p := max 0 raw
    let lower := max 0 (p * (1 - 1/5))
    let upper := p * (1 + 1/5)
    let total1 := s.total + p
    let feat2 := { feat1 with
      new_cases := p
      total_cases := total1
      new_cases_7d_avg := feat1.new_cases_7d_avg * (85/100) + p * (15/100)
      new_cases_growth :=
        if 0 < p ∧ 0 < lastNew then (p - lastNew) / lastNew
        else feat1.new_cases_growth }
    (⟨date1, pyRound p, pyRound total1, pyRound lower, pyRound upper, false⟩,
     ⟨date1, total1, p, feat2⟩)
  | none =>
    let p := s.cur * (105/100)
    let total1 := s.total + p
    (⟨date1, pyRound p, pyRound total1, pyRound (p * (8/10)),
      pyRound (p * (12/10)), true⟩,
     ⟨date1, total1, s.cur, feat1⟩)

/-- The `for i in range(days)` loop of `_generate_standard_predictions`. -/
def std_loop (m : Model) (lastNew : ℚ) : StdState → ℕ → List PredPoint
  | _, 0 => []
  | s, n + 1 =>
    let r := std_step m lastNew s
    r.1 :: std_loop m lastNew r.2 n

/-- Embeds `last_row` before the loop: the first row whose date is the maximum
(`data.loc[data["date_value"] == last_date].iloc[0]`). -/
def std_last_row (feats : List FeatRow) : FeatRow :=
  (feats.find? (fun r => r.date = maxDate feats)).getD default

/-- Embeds `last_new_cases`, read once before the loop and never reassigned. -/
def std_last_new (feats : List FeatRow) : ℚ := (std_last_row feats).new_cases

/-- The loop state before the first iteration: `current_date = last_date`,
`current_total_cases = last_total_cases`, `current_new_cases =
last_new_cases`, `current_features = last_row.copy()`. -/
def std_init (feats : List FeatRow) : StdState :=
  ⟨maxDate feats, (std_last_row feats).total_cases, std_last_new feats,
    std_last_row feats⟩

/-- Embeds `COVIDPredictor._generate_standard_predictions(model, data, days)`. -/
def generate_standard_predictions (m : Model) (feats : List FeatRow) (days : ℕ) :
    List PredPoint :=
  std_loop m (std_last_new feats) (std_init feats) days

/-- The loop state of `_generate_standard_predictions` before iteration
`i`: `stdIter` replays the state transition `i` times. -/
def stdIter (m : Model) (lastNew : ℚ) (s : StdState) : ℕ → StdState
  | 0 => s
  | n + 1 => stdIter m lastNew (std_step m lastNew s).2 n

/-- The state before iteration `i`, starting from the features' initial
state. -/
def stdIterOf (m : Model) (feats : List FeatRow) (i : ℕ) : StdState :=
  stdIter m (std_last_new feats) (std_init feats) i

/-- The `for i, pred in enumerate(raw_predictions[0])` loop of
`_process_lstm_predictions`. -/
def process_lstm_loop : ℕ → ℤ → ℚ → List ℚ → List PredPoint
  | _, _, _, [] => []
  | i, date, total, x :: rest =>
    let date1 := date + 1
    let v := max 0 x
    let total1 := total + v
    let conf : ℚ := 1/10 + (i : ℚ) / 100
    let lower := max 0 (v * (1 - conf))
    let upper := v * (1 + conf)
    ⟨date1, pyRound v, pyRound total1, pyRound lower, pyRound upper, false⟩ ::
      process_lstm_loop (i + 1) date1 total1 rest

/-- Embeds `COVIDPredictor._process_lstm_predictions(raw, last_date, last_values)`:
one structured point per raw output step. -/
def process_lstm_predictions (raw : List ℚ) (last_date : ℤ)
    (last_values : List FeatRow) : List PredPoint :=
  let last_total := ((last_values.getLast?).map (·.total_cases)).getD 0
  process_lstm_loop 0 last_date last_total raw

/-- Embeds `COVIDPredictor._generate_enhanced_predictions(model, data, days)`:
native sequence prediction if available, else the LSTM path, else the
standard path; any exception in the enhanced path falls back wholesale to
the standard path. -/
def generate_enhanced_predictions (m : Model) (feats : List FeatRow) (days : ℕ) :
    List PredPoint :=
  let last_date := maxDate feats
  let last_values := takeLast 14 feats
  match m.predictSeq with
  | some g =>
    match g last_values days with
    | some ps => ps
    | none => generate_standard_predictions m feats days
  | none =>
    match m.lstmOut with
    | some f =>
      match f last_values with
      | some raw => process_lstm_predictions raw last_date last_values
      | none => generate_standard_predictions m feats days
    | none => generate_standard_predictions m feats days

/-- The environment a predictor call runs against: the pickled model
object found at a registry path, and the outcome of
`data_manager.get_historical_data(country, metrics=[...])` (the data
layer, embedded separately above, is consumed here through its result). -/
structure PredEnv where
  artifactAt : String → Model
  histData : String → Except String (List HistRow)

/-- Embeds `COVIDPredictor._prepare_prediction_data(country)`: fetch the history,
fail on empty data, sort by date, keep the most recent 30 rows, compute
features. Both failure modes raise `PredictionError`. -/
def prepare_prediction_data (env : PredEnv) (country : String) :
    Except String (List FeatRow) :=
  match env.histData country with
  | .error e =>
    .error ("Echec de la preparation des donnees pour " ++ country ++ ": " ++ e)
  | .ok rows =>
    if rows.isEmpty then
      .error ("Aucune donnee historique trouvee pour " ++ country)
    else
      .ok (calculate_features (takeLast 30
        (rows.insertionSort (fun a b => a.date ≤ b.date))))

/-- The response dictionary of `COVIDPredictor.predict`. -/
structure PredictResult where
  country : String
  predictions : List PredPoint
  model_used : String
  prediction_days : ℕ
  metrics : List (String × ℚ)
  deriving DecidableEq, Repr

/-- The effective model kind `predict` resolves in its first step:
`"enhanced"` when `use_enhanced`, degraded back to the plain requested
kind when the country has no enhanced-capable model. -/
def effective_kind (st : RegState) (country model_type : String)
    (use_enhanced : Bool) : String :=
  let e0 := if use_enhanced then "enhanced" else model_type
  if use_enhanced && !((get_enhanced_countries st).contains country) then
    model_type
  else e0

/-- Embeds `COVIDPredictor.predict(country, days, model_type, use_enhanced)`.
Every exception of the pipeline — model resolution, data preparation, the
final metrics lookup — is wrapped into a `PredictionError` by the
enclosing `except` block; the generation functions themselves are total. -/
def predict (env : PredEnv) (st : RegState) (country : String) (days : ℕ)
    (model_type : String) (use_enhanced : Bool) :
    Except String (PredictResult × RegState) :=
  match get_model st country (effective_kind st country model_type use_enhanced) with
  | .error e =>
    .error ("Echec de la generation des predictions pour " ++ country ++ ": " ++ e)
  | .ok (art, st1) =>
    match prepare_prediction_data env country with
    | .error e =>
      .error ("Echec de la generation des predictions pour " ++ country ++ ": " ++ e)
    | .ok feats =>
      match get_model_metrics st1 country
          (some (effective_kind st country model_type use_enhanced)) with
      | .error e =>
        .error ("Echec de la generation des predictions pour " ++ country ++ ": " ++ e)
      | .ok (.one meta) =>
        .ok ({ country := country
               predictions :=
                 if use_enhanced then
                   generate_enhanced_predictions (env.artifactAt art.path) feats days
                 else
                   generate_standard_predictions (env.artifactAt art.path) feats days
               model_used := effective_kind st country model_type use_enhanced
               prediction_days := days
               metrics := meta.metrics }, st1)
      | .ok (.all _) =>
        -- `get_model_metrics` with a given kind never returns the whole
        -- table; this branch is unreachable.
        .error ("Echec de la generation des predictions pour " ++ country)

/-- Embeds `.max()` over the dates of the raw historical rows. -/
def maxDateRows (rows : List HistRow) : ℤ := maxDateZ (rows.map (·.date))

/-- The latest historical date known for a country: the maximum
`date_value` among the rows the data layer returns for it. -/
def latest_known_date (env : PredEnv) (country : String) : ℤ :=
  match env.histData country with
  | .ok rows => maxDateRows rows
  | .error _ => 0

instance : IsTotal HistRow (fun a b => a.date ≤ b.date) :=
  ⟨fun a b => le_total a.date b.date⟩

instance : IsTrans HistRow (fun a b => a.date ≤ b.date) :=
  ⟨fun _ _ _ h1 h2 => le_trans h1 h2⟩

/-! ## Concrete fixtures

Small concrete registries, environments and models used by the witness
and counterexample theorems below. -/

/-- A historical row for country `"A"`. -/
def rowA : HistRow :=
  { country := "A", date := 10, total_cases := 100, new_cases := 5,
    total_deaths := 2, new_deaths := 1 }

/-- A model whose scalar prediction always succeeds with 10. -/
def mStd : Model := { predictDay := fun _ => some 10 }

/-- A model whose scalar prediction always raises. -/
def mFailAll : Model := { predictDay := fun _ => none }

/-- An LSTM-style model: the scalar path raises, the sequence output has
two steps. -/
def mLstm2 : Model :=
  { predictDay := fun _ => none, lstmOut := some (fun _ => some [5, 7]) }

/-- Data layer outcome: country `"A"` has one historical row, everything
else is absent. -/
def envStd : PredEnv :=
  { artifactAt := fun _ => mStd
    histData := fun c => if c = "A" then .ok [rowA] else .error "absent" }

/-- Data layer outcome: every country has one historical row; artifacts
behave like `mStd`. -/
def envTest : PredEnv :=
  { artifactAt := fun _ => mStd, histData := fun _ => .ok [rowA] }

/-- Environment whose artifacts are LSTM-style models. -/
def envLstm : PredEnv :=
  { artifactAt := fun _ => mLstm2
    histData := fun c => if c = "A" then .ok [rowA] else .error "absent" }

/-- Empty registry: no models discovered at all. -/
def stEmpty : RegState :=
  { registry := [], loaded_models := [], model_metadata := [] }

/-- Registry where `"Testland"` has only a `random_forest` artifact. -/
def stRF : RegState :=
  { registry := [("Testland", [("random_forest", "models/Testland/random_forest.pkl")])]
    loaded_models := []
    model_metadata := [("Testland", [("random_forest", { created_at := "", metrics := [] })])] }

/-- Registry where `"A"` has only an `xgboost` artifact. -/
def stXgb : RegState :=
  { registry := [("A", [("xgboost", "models/A/xgboost.pkl")])]
    loaded_models := []
    model_metadata := [("A", [("xgboost", { created_at := "", metrics := [] })])] }

/-- Registry where `"A"` has only an `enhanced` artifact. -/
def stEnh : RegState :=
  { registry := [("A", [("enhanced", "models/A/enhanced.pkl")])]
    loaded_models := []
    model_metadata := [("A", [("enhanced", { created_at := "", metrics := [] })])] }

/-- An adapter that rejects every context. -/
def adapterRejectAll : Adapter :=
  { name := "enhanced_data", priority := 100
    canHandle := fun _ => false, loadData := fun _ => .error "no" }

/-- A minimal query context. -/
def ctxW : DataContext := mkDataContext (some "Testland") []

/-- A feature row with a positive `new_cases` (used to drive the
estimation-fallback loop). -/
def featPos : FeatRow :=
  { date := 0, new_cases := 100, total_cases := 1000, new_deaths := 0,
    total_deaths := 0, new_cases_7d_avg := 0, new_cases_growth := 0,
    new_cases_growth_7d_avg := 0, mortality_rate := 0 }

/-- A feature row with a negative `new_cases`, as produced by the
unclamped first-difference derivation on decreasing totals. -/
def featNeg : FeatRow :=
  { date := 0, new_cases := -10, total_cases := 50, new_deaths := 0,
    total_deaths := 0, new_cases_7d_avg := 0, new_cases_growth := 0,
    new_cases_growth_7d_avg := 0, mortality_rate := 0 }

/-- The artifact loaded for `("A", "xgboost")` from `stXgb` (first load,
sequence number 0). -/
def artA : Artifact := { path := "models/A/xgboost.pkl", loadId := 0 }

/-- Embeds `stXgb` after the first `get_model "A" "xgboost"` call: the artifact is
cached and one load has happened. -/
def stXgbAfter : RegState :=
  { registry := [("A", [("xgboost", "models/A/xgboost.pkl")])]
    loaded_models := [(("A", "xgboost"), artA)]
    model_metadata := [("A", [("xgboost", { created_at := "", metrics := [] })])]
    loadCount := 1 }

/-! ## Theorems -/

theorem zipWith_sub_nonneg_of_chain (ts : List ℚ) :
    ∀ t0 : ℚ, (t0 :: ts).Chain' (· ≤ ·) →
      ∀ v ∈ ts.zipWith (· - ·) (t0 :: ts), 0 ≤ v := by
  induction ts with
  | nil => intro t0 _ v hv; simp at hv
  | cons x ts ih =>
    intro t0 hch v hv
    rw [List.chain'_cons] at hch
    simp only [List.zipWith, List.mem_cons] at hv
    rcases hv with rfl | hv
    · exact sub_nonneg.mpr hch.1
    · exact ih x hch.2 v hv

theorem diffFill0_nonneg_of_chain (totals : List ℚ)
    (h : totals.Chain' (· ≤ ·)) : ∀ v ∈ diffFill0 totals, 0 ≤ v := by
  match totals with
  | [] => intro v hv; simp [diffFill0] at hv
  | t0 :: ts =>
    intro v hv
    simp only [diffFill0, List.mem_cons] at hv
    rcases hv with rfl | hv
    · exact le_refl 0
    · exact zipWith_sub_nonneg_of_chain ts t0 h v hv

theorem cumsumFrom_zipWith_sub (ts : List ℚ) :
    ∀ prev a : ℚ, cumsumFrom a (ts.zipWith (· - ·) (prev :: ts)) =
      ts.map (fun x => x - prev + a) := by
  induction ts with
  | nil => intro prev a; rfl
  | cons x ts ih =>
    intro prev a
    simp only [List.zipWith, cumsumFrom, List.map, List.cons.injEq]
    refine ⟨by ring, ?_⟩
    rw [ih x (a + (x - prev))]
    have hfe : (fun y : ℚ => y - x + (a + (x - prev))) =
        fun y : ℚ => y - prev + a := by
      funext y; ring
    rw [hfe]

theorem cumsum_diffFill0 (totals : List ℚ) :
    (cumsum (diffFill0 totals)).map (· + totals.headD 0) = totals := by
  match totals with
  | [] => rfl
  | t0 :: ts =>
    simp only [diffFill0, cumsum, cumsumFrom, List.headD, List.map,
      List.cons.injEq]
    refine ⟨by ring, ?_⟩
    rw [show ((0 : ℚ) + 0) = 0 by ring, cumsumFrom_zipWith_sub ts t0 0,
      List.map_map]
    have hfe : ((· + t0) ∘ fun x : ℚ => x - t0 + 0) = id := by
      funext y; simp
    rw [hfe, List.map_id]

theorem get_data_aux_error (ctx : DataContext) (adapters : List Adapter) :
    ∀ (errs errs' : List AdapterFailure),
      get_data_aux ctx adapters errs = .error errs' ↔
        ((∀ a ∈ adapters, adapterFails ctx a) ∧
          errs' = errs ++ failuresOf adapters ctx) := by
  induction adapters with
  | nil =>
    intro errs errs'
    simp only [get_data_aux, failuresOf, List.filterMap_nil, List.append_nil,
      List.not_mem_nil, false_implies, implies_true, true_and]
    exact ⟨fun h => by cases h; rfl, fun h => by rw [h]⟩
  | cons a rest ih =>
    intro errs errs'
    simp only [get_data_aux, failuresOf, List.filterMap_cons]
    by_cases hca : a.canHandle ctx
    · rw [if_pos hca, if_pos hca]
      cases hld : a.loadData ctx with
      | ok t =>
        dsimp only
        simp only [List.forall_mem_cons, adapterFails, hca, hld]
        constructor
        · intro h; cases h
        · rintro ⟨⟨h1 | ⟨e, he⟩, _⟩, _⟩
          · cases h1
          · cases he
      | error e =>
        dsimp only
        rw [ih (errs ++ [AdapterFailure.mk a.name e]) errs']
        simp only [List.forall_mem_cons, adapterFails, hca, hld,
          List.append_assoc, List.singleton_append]
        constructor
        · rintro ⟨h1, h2⟩
          exact ⟨⟨Or.inr ⟨e, rfl⟩, h1⟩, h2⟩
        · rintro ⟨⟨_, h1⟩, h2⟩
          exact ⟨h1, h2⟩
    · rw [if_neg hca, if_neg hca]
      rw [ih errs errs']
      simp only [List.forall_mem_cons, adapterFails]
      constructor
      · rintro ⟨h1, h2⟩
        exact ⟨⟨Or.inl (by simpa using hca), h1⟩, h2⟩
      · rintro ⟨⟨_, h1⟩, h2⟩
        exact ⟨h1, h2⟩

theorem get_data_aux_ok_append (ctx : DataContext) (adapters rest : List Adapter)
    (t : List HistRow) :
    ∀ errs, get_data_aux ctx adapters errs = .ok t →
      get_data_aux ctx (adapters ++ rest) errs = .ok t := by
  induction adapters with
  | nil => intro errs h; cases h
  | cons a as ih =>
    intro errs h
    simp only [get_data_aux, List.cons_append] at h ⊢
    by_cases hca : a.canHandle ctx
    · rw [if_pos hca] at h ⊢
      cases hld : a.loadData ctx with
      | ok t' =>
        rw [hld] at h
        dsimp only at h ⊢
        exact h
      | error e =>
        rw [hld] at h
        dsimp only at h ⊢
        exact ih _ h
    · rw [if_neg hca] at h ⊢
      exact ih _ h

/-- Claim C3. `get_data` raises `DataNotFound` exactly when every registered
adapter rejects the context or throws during load, the error carrying one
failure reason per adapter that threw; when no adapter's `can_handle` is
true it raises with an empty failure list; and a success of one adapter is
returned immediately, unaffected by any lower-priority adapters after it. -/
theorem get_data_contract (adapters : List Adapter) (ctx : DataContext) :
    ((get_data adapters ctx = .error (failuresOf adapters ctx)) ↔
      ∀ a ∈ adapters, adapterFails ctx a)
    ∧ ((∀ a ∈ adapters, a.canHandle ctx = false) →
      get_data adapters ctx = .error [])
    ∧ ∀ (t : List HistRow) (rest : List Adapter),
        get_data adapters ctx = .ok t →
        get_data (adapters ++ rest) ctx = .ok t := by
  refine ⟨?_, ?_, ?_⟩
  · rw [get_data, get_data_aux_error ctx adapters [] (failuresOf adapters ctx)]
    simp
  · intro h
    rw [get_data, get_data_aux_error ctx adapters [] []]
    constructor
    · intro a ha
      exact Or.inl (h a ha)
    · have : failuresOf adapters ctx = [] := by
        rw [failuresOf, List.filterMap_eq_nil_iff]
        intro a ha
        rw [if_neg (by simp [h a ha])]
      rw [this]
      simp
  · intro t rest h
    exact get_data_aux_ok_append ctx adapters rest t [] h

theorem alistGet_mem {κ α : Type} [DecidableEq κ] (key : κ) (v : α) :
    ∀ l : List (κ × α), alistGet key l = some v → (key, v) ∈ l := by
  intro l
  induction l with
  | nil => intro h; cases h
  | cons p rest ih =>
    intro h
    obtain ⟨k, w⟩ := p
    by_cases hk : k = key
    · subst hk
      rw [alistGet, if_pos rfl] at h
      cases h
      exact List.mem_cons_self _ _
    · rw [alistGet, if_neg hk] at h
      exact List.mem_cons_of_mem _ (ih h)

theorem loaded_lookup_none_of_consistent (st : RegState) (c k : String)
    (hcc : cache_consistent st = true) (hk : has_model st c k = false) :
    alistGet (c, k) st.loaded_models = none := by
  cases h : alistGet (c, k) st.loaded_models with
  | none => rfl
  | some art =>
    exfalso
    have hmem := alistGet_mem (c, k) art st.loaded_models h
    have hall := (List.all_eq_true.mp hcc) _ hmem
    dsimp only at hall
    rw [hk] at hall
    cases hall

theorem get_model_direct_ok (st : RegState) (c k : String)
    (h : has_model st c k = true) :
    ∃ r, get_model_direct st c k = .ok r := by
  unfold get_model_direct
  unfold has_model at h
  cases hl : alistGet (c, k) st.loaded_models with
  | some art => exact ⟨(art, st), rfl⟩
  | none =>
    dsimp only
    cases hr : alistGet c st.registry with
    | none => rw [hr] at h; simp at h
    | some ms =>
      rw [hr] at h
      dsimp only at h ⊢
      cases hk2 : alistGet k ms with
      | none => rw [hk2] at h; simp at h
      | some path => exact ⟨_, rfl⟩

theorem get_model_no_entry (st : RegState) (c k : String)
    (hmiss : alistGet (c, k) st.loaded_models = none)
    (hk : has_model st c k = false) :
    get_model st c k =
      match (get_alternative_model_types k).find?
          (fun alt => has_model st c alt) with
      | some alt => get_model_direct st c alt
      | none =>
        if has_model st c "default" then get_model_direct st c "default"
        else .error ("Aucun modele " ++ k ++
          " ou alternative disponible pour " ++ c) := by
  unfold get_model
  rw [hmiss, hk]
  rfl

/-- Claim C1. For every country and requested kind with no registry entry for
that country (and a cache consistent with the registry, as `get_model`
maintains), `get_model` resolves to the first kind of the fixed
alternative-kind preference table (for `"xgboost"`: gradient_boosting,
random_forest, lstm, enhanced, in that order) that is present for the
country, falling back to the `"default"` kind when no alternative is
present, and raises `ModelNotFound` exactly when none of the requested
kind, its alternatives and `"default"` has a registry entry. -/
theorem get_model_fallback (st : RegState) (c k : String)
    (hcc : cache_consistent st = true)
    (hk : has_model st c k = false) :
    get_alternative_model_types "xgboost" =
        ["gradient_boosting", "random_forest", "lstm", "enhanced"] ∧
    (match (get_alternative_model_types k).find?
        (fun alt => has_model st c alt) with
     | some alt => get_model st c k = get_model_direct st c alt
     | none =>
       if has_model st c "default" = true then
         get_model st c k = get_model_direct st c "default"
       else get_model st c k = .error ("Aucun modele " ++ k ++
         " ou alternative disponible pour " ++ c)) ∧
    ((∃ r, get_model st c k = .ok r) ↔
      ((get_alternative_model_types k).any (fun alt => has_model st c alt) ||
        has_model st c "default") = true) := by
  have hmiss := loaded_lookup_none_of_consistent st c k hcc hk
  have hchar := get_model_no_entry st c k hmiss hk
  refine ⟨rfl, ?_, ?_⟩
  · cases hf : (get_alternative_model_types k).find?
        (fun alt => has_model st c alt) with
    | some alt =>
      rw [hf] at hchar
      exact hchar
    | none =>
      rw [hf] at hchar
      by_cases hd : has_model st c "default" = true
      · rw [if_pos hd] at hchar ⊢
        exact hchar
      · rw [if_neg hd]
        rw [if_neg (by simpa using hd)] at hchar
        exact hchar
  · cases hf : (get_alternative_model_types k).find?
        (fun alt => has_model st c alt) with
    | some alt =>
      rw [hf] at hchar
      have halt : has_model st c alt = true := List.find?_some hf
      have hmem : alt ∈ get_alternative_model_types k :=
        List.mem_of_find?_eq_some hf
      constructor
      · intro _
        rw [Bool.or_eq_true, List.any_eq_true]
        exact Or.inl ⟨alt, hmem, halt⟩
      · intro _
        rw [hchar]
        exact get_model_direct_ok st c alt halt
    | none =>
      rw [hf] at hchar
      have hnone : ∀ x ∈ get_alternative_model_types k,
          ¬ has_model st c x = true := by
        intro x hx
        exact List.find?_eq_none.mp hf x hx
      have hany : (get_alternative_model_types k).any
          (fun alt => has_model st c alt) = false := by
        rw [Bool.eq_false_iff]
        intro hcon
        obtain ⟨x, hx, hpx⟩ := List.any_eq_true.mp hcon
        exact hnone x hx hpx
      rw [hany, Bool.false_or]
      by_cases hd : has_model st c "default" = true
      · rw [if_pos hd] at hchar
        constructor
        · intro _; exact hd
        · intro _
          rw [hchar]
          exact get_model_direct_ok st c "default" hd
      · rw [if_neg (by simpa using hd)] at hchar
        constructor
        · rintro ⟨r, hr⟩
          rw [hchar] at hr
          cases hr
        · intro hcon
          exact absurd hcon hd

theorem alistGet_cons_self {κ α : Type} [DecidableEq κ] (key : κ) (v : α)
    (l : List (κ × α)) : alistGet key ((key, v) :: l) = some v := by
  rw [alistGet, if_pos rfl]

theorem alistGet_cons_ne {κ α : Type} [DecidableEq κ] {k key : κ}
    (h : ¬ k = key) (v : α) (l : List (κ × α)) :
    alistGet key ((k, v) :: l) = alistGet key l := by
  rw [alistGet, if_neg h]

theorem get_model_direct_again (st : RegState) (c q : String) (a : Artifact)
    (st' : RegState) (h : get_model_direct st c q = .ok (a, st')) :
    get_model_direct st' c q = .ok (a, st') ∧
    st'.registry = st.registry ∧
    alistGet (c, q) st'.loaded_models = some a ∧
    ∀ k', k' ≠ q →
      alistGet (c, k') st'.loaded_models = alistGet (c, k') st.loaded_models := by
  unfold get_model_direct at h ⊢
  cases h0 : alistGet (c, q) st.loaded_models with
  | some art =>
    rw [h0] at h
    dsimp only at h
    simp only [Except.ok.injEq, Prod.mk.injEq] at h
    obtain ⟨rfl, rfl⟩ := h
    rw [h0]
    exact ⟨rfl, rfl, rfl, fun k' _ => rfl⟩
  | none =>
    rw [h0] at h
    dsimp only at h
    cases h1 : alistGet c st.registry with
    | none => rw [h1] at h; cases h
    | some ms =>
      rw [h1] at h
      dsimp only at h
      cases h2 : alistGet q ms with
      | none => rw [h2] at h; cases h
      | some path =>
        rw [h2] at h
        dsimp only at h
        simp only [Except.ok.injEq, Prod.mk.injEq] at h
        obtain ⟨rfl, rfl⟩ := h
        refine ⟨?_, rfl, ?_, ?_⟩
        · simp only [alistGet_cons_self]
        · exact alistGet_cons_self (c, q) _ _
        · intro k' hk'
          apply alistGet_cons_ne
          intro hcon
          injection hcon with _ h2'
          exact hk' h2'.symm

/-- Claim C10. For every country and kind on which `get_model` succeeds, a
second call returns the identical cached artifact instance — the very same
loaded object (equal `loadId`), with the registry state unchanged, hence
with no re-loading or re-parsing of the artifact file. -/
theorem get_model_idempotent (st : RegState) (c k : String) (a : Artifact)
    (st' : RegState) (h : get_model st c k = .ok (a, st')) :
    get_model st' c k = .ok (a, st') := by
  unfold get_model at h
  cases h0 : alistGet (c, k) st.loaded_models with
  | some art =>
    rw [h0] at h
    dsimp only at h
    simp only [Except.ok.injEq, Prod.mk.injEq] at h
    obtain ⟨rfl, rfl⟩ := h
    unfold get_model
    rw [h0]
  | none =>
    rw [h0] at h
    dsimp only at h
    by_cases hk : has_model st c k = true
    · rw [if_pos hk] at h
      obtain ⟨_, _, hself, _⟩ := get_model_direct_again st c k a st' h
      unfold get_model
      rw [hself]
    · rw [if_neg hk] at h
      cases hf : (get_alternative_model_types k).find?
          (fun alt => has_model st c alt) with
      | some alt =>
        rw [hf] at h
        dsimp only at h
        obtain ⟨hagain, hreg, _, hpres⟩ :=
          get_model_direct_again st c alt a st' h
        have halt : has_model st c alt = true := List.find?_some hf
        have hne : k ≠ alt := by
          intro hcon
          rw [hcon] at hk
          exact hk halt
        have h0' : alistGet (c, k) st'.loaded_models = none := by
          rw [hpres k hne, h0]
        have hhm : ∀ c' k', has_model st' c' k' = has_model st c' k' := by
          intro c' k'
          unfold has_model
          rw [hreg]
        unfold get_model
        rw [h0']
        dsimp only
        rw [if_neg (by rw [hhm]; exact hk)]
        have hf' : (get_alternative_model_types k).find?
            (fun alt => has_model st' c alt) = some alt := by
          have hfe : (fun alt => has_model st' c alt) =
              (fun alt => has_model st c alt) := by
            funext x
            exact hhm c x
          rw [hfe, hf]
        rw [hf']
        exact hagain
      | none =>
        rw [hf] at h
        dsimp only at h
        by_cases hd : has_model st c "default" = true
        · rw [if_pos hd] at h
          obtain ⟨hagain, hreg, _, hpres⟩ :=
            get_model_direct_again st c "default" a st' h
          have hne : k ≠ "default" := by
            intro hcon
            rw [hcon] at hk
            exact hk hd
          have h0' : alistGet (c, k) st'.loaded_models = none := by
            rw [hpres k hne, h0]
          have hhm : ∀ c' k', has_model st' c' k' = has_model st c' k' := by
            intro c' k'
            unfold has_model
            rw [hreg]
          unfold get_model
          rw [h0']
          dsimp only
          rw [if_neg (by rw [hhm]; exact hk)]
          have hf' : (get_alternative_model_types k).find?
              (fun alt => has_model st' c alt) = none := by
            have hfe : (fun alt => has_model st' c alt) =
                (fun alt => has_model st c alt) := by
              funext x
              exact hhm c x
            rw [hfe, hf]
          rw [hf']
          dsimp only
          rw [if_pos (by rw [hhm]; exact hd)]
          exact hagain
        · rw [if_neg hd] at h
          cases h

theorem get_model_direct_preserves (st : RegState) (c q : String)
    (a : Artifact) (st' : RegState)
    (h : get_model_direct st c q = .ok (a, st')) :
    st'.registry = st.registry ∧ st'.model_metadata = st.model_metadata := by
  unfold get_model_direct at h
  cases h0 : alistGet (c, q) st.loaded_models with
  | some art =>
    rw [h0] at h
    dsimp only at h
    simp only [Except.ok.injEq, Prod.mk.injEq] at h
    obtain ⟨rfl, rfl⟩ := h
    exact ⟨rfl, rfl⟩
  | none =>
    rw [h0] at h
    dsimp only at h
    cases h1 : alistGet c st.registry with
    | none => rw [h1] at h; cases h
    | some ms =>
      rw [h1] at h
      dsimp only at h
      cases h2 : alistGet q ms with
      | none => rw [h2] at h; cases h
      | some path =>
        rw [h2] at h
        dsimp only at h
        simp only [Except.ok.injEq, Prod.mk.injEq] at h
        obtain ⟨rfl, rfl⟩ := h
        exact ⟨rfl, rfl⟩

theorem get_model_preserves (st : RegState) (c k : String) (a : Artifact)
    (st' : RegState) (h : get_model st c k = .ok (a, st')) :
    st'.registry = st.registry ∧ st'.model_metadata = st.model_metadata := by
  unfold get_model at h
  cases h0 : alistGet (c, k) st.loaded_models with
  | some art =>
    rw [h0] at h
    dsimp only at h
    simp only [Except.ok.injEq, Prod.mk.injEq] at h
    obtain ⟨rfl, rfl⟩ := h
    exact ⟨rfl, rfl⟩
  | none =>
    rw [h0] at h
    dsimp only at h
    by_cases hk : has_model st c k = true
    · rw [if_pos hk] at h
      exact get_model_direct_preserves st c k a st' h
    · rw [if_neg hk] at h
      cases hf : (get_alternative_model_types k).find?
          (fun alt => has_model st c alt) with
      | some alt =>
        rw [hf] at h
        dsimp only at h
        exact get_model_direct_preserves st c alt a st' h
      | none =>
        rw [hf] at h
        dsimp only at h
        by_cases hd : has_model st c "default" = true
        · rw [if_pos hd] at h
          exact get_model_direct_preserves st c "default" a st' h
        · rw [if_neg hd] at h
          cases h

/-- Claim C8. When the registry has no artifact of the requested kind for a
country — even when an alternative kind is present, so that model
resolution itself succeeds — a plain (`use_enhanced = false`) `predict`
call raises `PredictionError`: metadata is attached only to discovered
kinds, so the final `get_model_metrics` lookup under the requested kind
raises `ModelNotFound`, which `predict` wraps. -/
theorem predict_fails_without_requested_kind (env : PredEnv) (st : RegState)
    (c k : String) (days : ℕ)
    (hmeta : metadata_subset st = true)
    (hk : has_model st c k = false)
    (alt : String) (_halt_mem : alt ∈ get_alternative_model_types k)
    (_halt : has_model st c alt = true) :
    ∃ e, predict env st c days k false = .error e := by
  unfold predict
  have heff : effective_kind st c k false = k := rfl
  rw [heff]
  cases hg : get_model st c k with
  | error e => exact ⟨_, rfl⟩
  | ok r =>
    obtain ⟨art, st1⟩ := r
    dsimp only
    cases hp : prepare_prediction_data env c with
    | error e => exact ⟨_, rfl⟩
    | ok feats =>
      dsimp only
      obtain ⟨hreg, hmetap⟩ := get_model_preserves st c k art st1 hg
      have hmm : get_model_metrics st1 c (some k) =
          .error ("Aucune metadonnee disponible pour " ++ c ++ "/" ++ k) ∨
          get_model_metrics st1 c (some k) =
          .error ("Aucune metadonnee disponible pour " ++ c) := by
        unfold get_model_metrics
        rw [hmetap]
        cases hm : alistGet c st.model_metadata with
        | none => exact Or.inr rfl
        | some ms =>
          dsimp only
          cases hkm : alistGet k ms with
          | none => exact Or.inl rfl
          | some m =>
            exfalso
            have hmem := alistGet_mem c ms st.model_metadata hm
            have hmem2 := alistGet_mem k m ms hkm
            have h1 := (List.all_eq_true.mp hmeta) _ hmem
            dsimp only at h1
            have h2 := (List.all_eq_true.mp h1) _ hmem2
            dsimp only at h2
            rw [hk] at h2
            cases h2
      rcases hmm with hmm | hmm
      · rw [hmm]
        exact ⟨_, rfl⟩
      · rw [hmm]
        exact ⟨_, rfl⟩

/-- Claim C9. For a `use_enhanced = true` call on a country absent from the
enhanced-capable set, the call does not error on that account: the
effective kind silently degrades to the plain requested kind, the call
succeeds exactly when the corresponding plain call succeeds, and a
successful response reports `model_used` equal to the plain kind. -/
theorem predict_enhanced_degrades (env : PredEnv) (st : RegState)
    (c k : String) (days : ℕ)
    (hnot : (get_enhanced_countries st).contains c = false) :
    (predict env st c days k true).isOk = (predict env st c days k false).isOk ∧
    ∀ r st', predict env st c days k true = .ok (r, st') → r.model_used = k := by
  have heffT : effective_kind st c k true = k := by
    unfold effective_kind
    rw [hnot]
    rfl
  have heffF : effective_kind st c k false = k := rfl
  unfold predict
  rw [heffT, heffF]
  cases hg : get_model st c k with
  | error e =>
    refine ⟨rfl, ?_⟩
    intro r st' hr
    cases hr
  | ok p =>
    obtain ⟨art, st1⟩ := p
    dsimp only
    cases hp : prepare_prediction_data env c with
    | error e =>
      refine ⟨rfl, ?_⟩
      intro r st' hr
      cases hr
    | ok feats =>
      dsimp only
      cases hm : get_model_metrics st1 c (some k) with
      | error e =>
        refine ⟨rfl, ?_⟩
        intro r st' hr
        cases hr
      | ok mr =>
        cases mr with
        | one meta =>
          refine ⟨rfl, ?_⟩
          intro r st' hr
          dsimp only at hr
          simp only [Except.ok.injEq, Prod.mk.injEq] at hr
          obtain ⟨⟨rfl, rfl⟩⟩ := hr
          rfl
        | all ms =>
          refine ⟨rfl, ?_⟩
          intro r st' hr
          cases hr

theorem get_model_metrics_some_not_all (st : RegState) (c kt : String)
    (ms : List (String × MetaEntry)) :
    get_model_metrics st c (some kt) ≠ .ok (.all ms) := by
  unfold get_model_metrics
  cases h : alistGet c st.model_metadata with
  | none => intro hcon; cases hcon
  | some m =>
    dsimp only
    cases h2 : alistGet kt m with
    | none => intro hcon; cases hcon
    | some me =>
      intro hcon
      simp at hcon

/-- Claim C4, amended. `predict` raises `PredictionError` exactly when one of
the pipeline steps it wraps fails: model resolution, feature preparation,
or the final metrics lookup — not only feature preparation. Per-day and
sequence model failures are absorbed (the generation functions are total),
so whether the call succeeds is independent of the model objects' behavior
entirely: it only depends on the data layer's outcome and the registry. -/
theorem predict_error_characterization (env : PredEnv) (st : RegState)
    (c k : String) (days : ℕ) (u : Bool) :
    ((∃ e, predict env st c days k u = .error e) ↔
      ((∃ e, get_model st c (effective_kind st c k u) = .error e) ∨
       (∃ e, prepare_prediction_data env c = .error e) ∨
       (∃ art st1 e,
         get_model st c (effective_kind st c k u) = .ok (art, st1) ∧
         get_model_metrics st1 c (some (effective_kind st c k u)) = .error e)))
    ∧ ∀ env' : PredEnv, env'.histData = env.histData →
        (predict env' st c days k u).isOk = (predict env st c days k u).isOk := by
  constructor
  · unfold predict
    cases hg : get_model st c (effective_kind st c k u) with
    | error e =>
      constructor
      · intro _
        exact Or.inl ⟨e, rfl⟩
      · intro _
        exact ⟨_, rfl⟩
    | ok p =>
      obtain ⟨art, st1⟩ := p
      dsimp only
      cases hp : prepare_prediction_data env c with
      | error e =>
        constructor
        · intro _
          exact Or.inr (Or.inl ⟨e, rfl⟩)
        · intro _
          exact ⟨_, rfl⟩
      | ok feats =>
        dsimp only
        cases hm : get_model_metrics st1 c
            (some (effective_kind st c k u)) with
        | error e =>
          constructor
          · intro _
            exact Or.inr (Or.inr ⟨art, st1, e, rfl, hm⟩)
          · intro _
            exact ⟨_, rfl⟩
        | ok mr =>
          cases mr with
          | one meta =>
            constructor
            · rintro ⟨e, he⟩
              cases he
            · rintro (⟨e, he⟩ | ⟨e, he⟩ | ⟨a', s', e, hq, he⟩)
              · cases he
              · cases he
              · simp only [Except.ok.injEq, Prod.mk.injEq] at hq
                obtain ⟨h1, h2⟩ := hq
                subst h1
                subst h2
                rw [hm] at he
                cases he
          | all ms =>
            exact absurd hm (get_model_metrics_some_not_all st1 c _ ms)
  · intro env' hhd
    have hprep : prepare_prediction_data env' c = prepare_prediction_data env c := by
      unfold prepare_prediction_data
      rw [hhd]
    unfold predict
    rw [hprep]
    cases hg : get_model st c (effective_kind st c k u) with
    | error e => rfl
    | ok p =>
      obtain ⟨art, st1⟩ := p
      dsimp only
      cases hp : prepare_prediction_data env c with
      | error e => rfl
      | ok feats =>
        dsimp only
        cases hm : get_model_metrics st1 c
            (some (effective_kind st c k u)) with
        | error e => rfl
        | ok mr =>
          cases mr with
          | one meta => rfl
          | all ms => rfl

theorem foldl_max_le_init (rest : List ℤ) : ∀ d : ℤ, d ≤ rest.foldl max d := by
  induction rest with
  | nil => intro d; exact le_refl d
  | cons x rest ih =>
    intro d
    exact le_trans (le_max_left d x) (ih (max d x))

theorem foldl_max_le_mem (rest : List ℤ) :
    ∀ d x, x ∈ rest → x ≤ rest.foldl max d := by
  induction rest with
  | nil => intro d x hx; cases hx
  | cons y rest ih =>
    intro d x hx
    rcases List.mem_cons.mp hx with rfl | hx
    · exact le_trans (le_max_right d x) (foldl_max_le_init rest (max d x))
    · exact ih (max d y) x hx

theorem foldl_max_mem_or (rest : List ℤ) :
    ∀ d, rest.foldl max d = d ∨ rest.foldl max d ∈ rest := by
  induction rest with
  | nil => intro d; exact Or.inl rfl
  | cons x rest ih =>
    intro d
    rcases ih (max d x) with h | h
    · rcases max_choice d x with h2 | h2
      · exact Or.inl (by rw [List.foldl_cons, h, h2])
      · exact Or.inr (by rw [List.foldl_cons, h, h2]; exact List.mem_cons_self _ _)
    · exact Or.inr (List.mem_cons_of_mem _ h)

theorem le_maxDateZ (l : List ℤ) (x : ℤ) (hx : x ∈ l) : x ≤ maxDateZ l := by
  match l with
  | [] => cases hx
  | d :: rest =>
    rcases List.mem_cons.mp hx with rfl | hx
    · exact foldl_max_le_init rest x
    · exact foldl_max_le_mem rest d x hx

theorem maxDateZ_mem (l : List ℤ) (h : l ≠ []) : maxDateZ l ∈ l := by
  match l with
  | [] => exact absurd rfl h
  | d :: rest =>
    rcases foldl_max_mem_or rest d with h2 | h2
    · rw [maxDateZ, h2]; exact List.mem_cons_self _ _
    · exact List.mem_cons_of_mem _ h2

theorem maxDateZ_perm (l l' : List ℤ) (hp : l.Perm l') : maxDateZ l = maxDateZ l' := by
  match l, l' with
  | [], l' =>
    rw [List.Perm.nil_eq hp]
  | d :: rest, l' =>
    have hne' : l' ≠ [] := by
      intro hcon
      subst hcon
      cases List.Perm.eq_nil hp
    apply le_antisymm
    · exact le_maxDateZ l' _ (hp.mem_iff.mp (maxDateZ_mem (d :: rest) (by simp)))
    · exact le_maxDateZ (d :: rest) _ (hp.mem_iff.mpr (maxDateZ_mem l' hne'))

theorem maxDateZ_drop_sorted (l : List ℤ) (hs : l.Sorted (· ≤ ·)) (j : ℕ)
    (hne : l.drop j ≠ []) : maxDateZ (l.drop j) = maxDateZ l := by
  have hlne : l ≠ [] := by
    intro hcon
    subst hcon
    exact hne (by simp)
  apply le_antisymm
  · exact le_maxDateZ l _ (List.drop_subset j l (maxDateZ_mem (l.drop j) hne))
  · have hmem := maxDateZ_mem l hlne
    have hm2 : maxDateZ l ∈ l.take j ++ l.drop j := by
      rw [List.take_append_drop]
      exact hmem
    rcases List.mem_append.mp hm2 with hm | hm
    · -- the max sits in the taken prefix: bounded by any suffix element
      have hpw := hs
      rw [List.Sorted, ← List.take_append_drop j l, List.pairwise_append] at hpw
      exact le_trans
        (hpw.2.2 _ hm _ (maxDateZ_mem (l.drop j) hne))
        (le_maxDateZ (l.drop j) _ (maxDateZ_mem (l.drop j) hne))
    · exact le_maxDateZ (l.drop j) _ hm

theorem calculate_features_dates (rows : List HistRow) :
    (calculate_features rows).map (·.date) = rows.map (·.date) := by
  unfold calculate_features
  rw [List.map_map]
  have h1 : ((fun r : FeatRow => r.date) ∘ fun p : ℕ × HistRow =>
      ({ date := p.2.date
         new_cases := p.2.new_cases
         total_cases := p.2.total_cases
         new_deaths := p.2.new_deaths
         total_deaths := p.2.total_deaths
         new_cases_7d_avg := rollingMean7 (rows.map (·.new_cases)) p.1
         new_cases_growth := pctChange (rows.map (·.new_cases)) p.1
         new_cases_growth_7d_avg :=
           rollingMean7 ((List.range rows.length).map
             (pctChange (rows.map (·.new_cases)))) p.1
         mortality_rate :=
           if p.2.total_cases = (0 : ℚ) then 0
           else p.2.total_deaths / p.2.total_cases } : FeatRow)) =
      ((fun r : HistRow => r.date) ∘ Prod.snd) := rfl
  rw [h1, ← List.map_map, List.enum_map_snd]

theorem maxDate_prepared (rows : List HistRow) (h : rows ≠ []) :
    maxDate (calculate_features (takeLast 30
      (rows.insertionSort (fun a b => a.date ≤ b.date)))) = maxDateRows rows := by
  have hlen : 0 < rows.length := List.length_pos.mpr h
  rw [maxDate, calculate_features_dates]
  rw [takeLast, List.map_drop]
  set srt := rows.insertionSort (fun a b => a.date ≤ b.date) with hsrt
  have hperm : srt.Perm rows := List.perm_insertionSort _ rows
  have hlen2 : srt.length = rows.length := List.length_insertionSort _ rows
  have hsorted : (srt.map (·.date)).Sorted (· ≤ ·) := by
    have hp := List.sorted_insertionSort (fun a b : HistRow => a.date ≤ b.date) rows
    exact List.Pairwise.map _ (fun a b hab => hab) hp
  have hdlen : (srt.map (·.date)).length = rows.length := by
    rw [List.length_map, hlen2]
  have hne : (srt.map (·.date)).drop (srt.length - 30) ≠ [] := by
    intro hcon
    rw [List.drop_eq_nil_iff, hdlen, hlen2] at hcon
    omega
  rw [maxDateZ_drop_sorted (srt.map (·.date)) hsorted (srt.length - 30) hne]
  rw [maxDateRows]
  exact maxDateZ_perm _ _ (hperm.map (·.date))

theorem pyRound_nonneg (q : ℚ) (h : 0 ≤ q) : 0 ≤ pyRound q := by
  unfold pyRound
  have hfl : (0 : ℤ) ≤ ⌊q⌋ := Int.floor_nonneg.mpr h
  by_cases h1 : q - (⌊q⌋ : ℚ) < 1/2
  · rw [if_pos h1]
    exact hfl
  · rw [if_neg h1]
    by_cases h2 : 1/2 < q - (⌊q⌋ : ℚ)
    · rw [if_pos h2]
      omega
    · rw [if_neg h2]
      by_cases h3 : ⌊q⌋ % 2 = 0
      · rw [if_pos h3]
        exact hfl
      · rw [if_neg h3]
        omega

theorem std_step_fst_date (m : Model) (lastNew : ℚ) (s : StdState) :
    (std_step m lastNew s).1.date = s.date + 1 := by
  unfold std_step
  dsimp only
  split
  · rfl
  · rfl

theorem std_step_snd_date (m : Model) (lastNew : ℚ) (s : StdState) :
    (std_step m lastNew s).2.date = s.date + 1 := by
  unfold std_step
  dsimp only
  split
  · rfl
  · rfl

theorem std_step_cur_nonneg (m : Model) (lastNew : ℚ) (s : StdState)
    (h : 0 ≤ s.cur) : 0 ≤ (std_step m lastNew s).2.cur := by
  unfold std_step
  dsimp only
  split
  · exact le_max_left 0 _
  · exact h

theorem std_loop_length (m : Model) (lastNew : ℚ) :
    ∀ (n : ℕ) (s : StdState), (std_loop m lastNew s n).length = n := by
  intro n
  induction n with
  | zero => intro s; rfl
  | succ n ih =>
    intro s
    rw [std_loop, List.length_cons, ih]

theorem std_loop_getD (m : Model) (lastNew : ℚ) :
    ∀ (n : ℕ) (s : StdState) (i : ℕ), i < n →
      (std_loop m lastNew s n).getD i default =
        (std_step m lastNew (stdIter m lastNew s i)).1 := by
  intro n
  induction n with
  | zero => intro s i hi; omega
  | succ n ih =>
    intro s i hi
    rw [std_loop]
    match i with
    | 0 =>
      rw [List.getD_cons_zero]
      rfl
    | j + 1 =>
      rw [List.getD_cons_succ]
      rw [ih (std_step m lastNew s).2 j (by omega)]
      rfl

theorem stdIter_date (m : Model) (lastNew : ℚ) :
    ∀ (i : ℕ) (s : StdState), (stdIter m lastNew s i).date = s.date + i := by
  intro i
  induction i with
  | zero => intro s; simp [stdIter]
  | succ i ih =>
    intro s
    rw [stdIter, ih (std_step m lastNew s).2, std_step_snd_date]
    push_cast
    ring

theorem stdIter_cur_nonneg (m : Model) (lastNew : ℚ) :
    ∀ (i : ℕ) (s : StdState), 0 ≤ s.cur → 0 ≤ (stdIter m lastNew s i).cur := by
  intro i
  induction i with
  | zero => intro s h; exact h
  | succ i ih =>
    intro s h
    rw [stdIter]
    exact ih (std_step m lastNew s).2 (std_step_cur_nonneg m lastNew s h)

/-- Claim C5, amended. Every successful standard-path call
(`use_enhanced = false`) returns exactly `days` prediction points whose
dates are strictly increasing consecutive days, the first being one day
after the latest historical date known for the country. (In the enhanced
LSTM path the number of points instead equals the model's sequence output
length, which need not equal `days` — see the counterexample.) -/
theorem predict_standard_forecast_shape (env : PredEnv) (st : RegState)
    (c k : String) (days : ℕ) (r : PredictResult) (st' : RegState)
    (h : predict env st c days k false = .ok (r, st')) :
    r.predictions.length = days ∧
    ∀ i : ℕ, i < days →
      (r.predictions.getD i default).date =
        latest_known_date env c + 1 + i := by
  unfold predict at h
  cases hg : get_model st c (effective_kind st c k false) with
  | error e => rw [hg] at h; cases h
  | ok p =>
    rw [hg] at h
    obtain ⟨art, st1⟩ := p
    dsimp only at h
    cases hp : prepare_prediction_data env c with
    | error e => rw [hp] at h; cases h
    | ok feats =>
      rw [hp] at h
      dsimp only at h
      cases hm : get_model_metrics st1 c (some (effective_kind st c k false)) with
      | error e => rw [hm] at h; cases h
      | ok mr =>
        rw [hm] at h
        cases mr with
        | all ms => dsimp only at h; cases h
        | one meta =>
          dsimp only at h
          simp only [Except.ok.injEq, Prod.mk.injEq] at h
          obtain ⟨h1, _⟩ := h
          have hpreds : r.predictions =
              generate_standard_predictions (env.artifactAt art.path) feats days := by
            rw [← h1]
            rfl
          unfold prepare_prediction_data at hp
          cases hh : env.histData c with
          | error e => rw [hh] at hp; cases hp
          | ok rows =>
            rw [hh] at hp
            dsimp only at hp
            by_cases hemp : rows.isEmpty
            · rw [if_pos hemp] at hp; cases hp
            · rw [if_neg hemp] at hp
              simp only [Except.ok.injEq] at hp
              have hrne : rows ≠ [] := by
                intro hcon
                subst hcon
                exact hemp rfl
              have hlkd : latest_known_date env c = maxDateRows rows := by
                unfold latest_known_date
                rw [hh]
              constructor
              · rw [hpreds]
                exact std_loop_length _ _ days _
              · intro i hi
                rw [hpreds]
                unfold generate_standard_predictions
                rw [std_loop_getD _ _ days _ i hi, std_step_fst_date,
                  stdIter_date]
                rw [show (std_init feats).date = maxDate feats from rfl]
                rw [← hp, maxDate_prepared rows hrne, hlkd]
                ring

/-- Claim C6, amended. In the standard path, whenever the model's scalar
prediction raises at day `i`, the forecast still has the full requested
number of entries; entry `i` is flagged `estimation: true` and carries
(rounded) `1.05 ×` the running new-cases value — the most recent
successful prediction, or the last historical `new_cases` when no earlier
day succeeded; the estimation branch never updates the running value, so
consecutive failed days repeat the same estimate — with bounds `0.8×` and
`1.2×` of that heuristic value. The value is non-negative whenever the
last historical `new_cases` is non-negative (successful days are floored
at zero; the estimation branch applies no floor of its own). -/
theorem generate_standard_estimation (m : Model) (feats : List FeatRow)
    (days i : ℕ) (hi : i < days)
    (hfail : m.predictDay
      { (stdIterOf m feats i).feat with
          date := (stdIterOf m feats i).date + 1 } = none) :
    (generate_standard_predictions m feats days).length = days ∧
    (generate_standard_predictions m feats days).getD i default =
      { date := (stdIterOf m feats i).date + 1
        new_cases := pyRound ((stdIterOf m feats i).cur * (105/100))
        total_cases := pyRound ((stdIterOf m feats i).total +
          (stdIterOf m feats i).cur * (105/100))
        lower_bound := pyRound ((stdIterOf m feats i).cur * (105/100) * (8/10))
        upper_bound := pyRound ((stdIterOf m feats i).cur * (105/100) * (12/10))
        estimation := true } ∧
    (0 ≤ std_last_new feats →
      0 ≤ pyRound ((stdIterOf m feats i).cur * (105/100))) := by
  refine ⟨std_loop_length _ _ days _, ?_, ?_⟩
  · unfold generate_standard_predictions
    rw [std_loop_getD _ _ days _ i hi]
    unfold stdIterOf at hfail ⊢
    unfold std_step
    dsimp only
    rw [hfail]
  · intro h0
    apply pyRound_nonneg
    have hcur := stdIter_cur_nonneg m (std_last_new feats) i (std_init feats) h0
    unfold stdIterOf
    exact mul_nonneg hcur (by norm_num)

/-- Claim C7. Given only `total_cases` per country in date order, the derived
`new_cases` column reconstructs `total_cases` exactly: its cumulative sum
plus the first known total equals the totals at every date; in particular
totals `[0,1,3,6,10,15,21,28,36,45]` yield `new_cases` `[0,1,...,9]`. -/
theorem derive_new_cases_roundtrip :
    (∀ totals : List ℚ,
      (cumsum (diffFill0 totals)).map (· + totals.headD 0) = totals) ∧
    diffFill0 [0, 1, 3, 6, 10, 15, 21, 28, 36, 45] =
      [0, 1, 2, 3, 4, 5, 6, 7, 8, 9] :=
  ⟨cumsum_diffFill0, by norm_num [diffFill0, List.zipWith_cons_cons]⟩

/-- Claim C2, counterexample. On the decreasing totals `[5, 3]` the adapters
derive `new_cases = [0, -2]`: a negative derived value, refuting the claim
that derived values are never negative — the source applies no clamp. -/
theorem diffFill0_negative_cex :
    diffFill0 [5, 3] = [0, -2] ∧ (diffFill0 [5, 3]).getD 1 0 < 0 := by
  have h : diffFill0 [5, 3] = [0, -2] := by
    norm_num [diffFill0, List.zipWith_cons_cons]
  refine ⟨h, ?_⟩
  rw [h]
  norm_num

/-- Claim C4, counterexample. `predict` raises `PredictionError` for a
country whose feature preparation succeeds: with an empty registry, model
resolution fails and is wrapped into `PredictionError`, so the error is
not confined to feature-preparation failures. -/
theorem predict_error_without_prep_failure_cex :
    (predict envStd stEmpty "A" 2 "xgboost" false).isOk = false ∧
    (prepare_prediction_data envStd "A").isOk = true := by
  constructor
  · rfl
  · rfl

/-- Claim C5, counterexample. A successful `use_enhanced = true` call whose
LSTM model emits a 2-step sequence returns 2 prediction points although
`days = 3`: the returned list does not have exactly N entries. -/
theorem predict_lstm_count_cex :
    (predict envLstm stEnh "A" 3 "m" true).toOption.map
      (fun p => p.1.predictions.length) = some 2 ∧
    (predict envLstm stEnh "A" 3 "m" true).toOption.map
      (fun p => p.1.predictions.length) ≠ some 3 := by
  constructor
  · rfl
  · intro hcon
    rw [show (predict envLstm stEnh "A" 3 "m" true).toOption.map
      (fun p => p.1.predictions.length) = some 2 from rfl] at hcon
    cases hcon

/-- Claim C6, counterexample. When the last historical `new_cases` is
negative (reachable: the derivation clamps nothing) and the model raises
on day 0, the estimation entry carries a negative value, refuting the
claimed non-negativity. -/
theorem generate_standard_negative_estimation_cex :
    generate_standard_predictions mFailAll [featNeg] 1 =
      [{ date := 1, new_cases := -10, total_cases := 40, lower_bound := -8,
         upper_bound := -13, estimation := true }] ∧
    ((generate_standard_predictions mFailAll [featNeg] 1).getD 0
      default).new_cases < 0 := by
  have hgen : generate_standard_predictions mFailAll [featNeg] 1 =
      [{ date := 1
         new_cases := pyRound ((-10 : ℚ) * (105/100))
         total_cases := pyRound ((50 : ℚ) + (-10 : ℚ) * (105/100))
         lower_bound := pyRound ((-10 : ℚ) * (105/100) * (8/10))
         upper_bound := pyRound ((-10 : ℚ) * (105/100) * (12/10))
         estimation := true }] := rfl
  have h1 : pyRound ((-10 : ℚ) * (105/100)) = -10 := by
    rw [show ((-10 : ℚ) * (105/100)) = -21/2 by norm_num]
    rw [pyRound]
    norm_num
  have h2 : pyRound ((50 : ℚ) + (-10 : ℚ) * (105/100)) = 40 := by
    rw [show ((50 : ℚ) + (-10 : ℚ) * (105/100)) = 79/2 by norm_num]
    rw [pyRound]
    norm_num
  have h3 : pyRound ((-10 : ℚ) * (105/100) * (8/10)) = -8 := by
    rw [show ((-10 : ℚ) * (105/100) * (8/10)) = -42/5 by norm_num]
    rw [pyRound]
    norm_num
  have h4 : pyRound ((-10 : ℚ) * (105/100) * (12/10)) = -13 := by
    rw [show ((-10 : ℚ) * (105/100) * (12/10)) = -63/5 by norm_num]
    rw [pyRound]
    norm_num
  rw [hgen, h1, h2, h3, h4]
  refine ⟨rfl, ?_⟩
  norm_num

/-- Witness for C1: on a registry where Testland has only a random_forest
artifact, requesting xgboost succeeds through the alternative table. -/
theorem get_model_fallback_witness :
    ∃ r, get_model stRF "Testland" "xgboost" = .ok r :=
  (get_model_fallback stRF "Testland" "xgboost" (by decide)
    (by decide)).2.2.mpr (by decide)

/-- Witness for C2 (amended): on the non-decreasing totals `[0, 1, 3]`
every derived value is non-negative. -/
theorem diffFill0_nonneg_of_chain_witness :
    0 ≤ (diffFill0 [(0 : ℚ), 1, 3]).getD 1 0 := by
  have h := diffFill0_nonneg_of_chain [0, 1, 3] (by norm_num)
  apply h
  have hd : diffFill0 [(0 : ℚ), 1, 3] = [0, 1, 2] := by
    norm_num [diffFill0, List.zipWith_cons_cons]
  rw [hd]
  norm_num

/-- Witness for C3: with a single adapter that rejects every context,
`get_data` raises with an empty failure list. -/
theorem get_data_contract_witness :
    get_data [adapterRejectAll] ctxW = .error [] :=
  (get_data_contract [adapterRejectAll] ctxW).2.1
    (fun a ha => by
      rw [List.mem_singleton] at ha
      subst ha
      rfl)

/-- Witness for C4 (amended): on an empty registry, the characterization
yields the `PredictionError` through the failed model resolution. -/
theorem predict_error_characterization_witness :
    ∃ e, predict envStd stEmpty "A" 2 "xgboost" false = .error e :=
  (predict_error_characterization envStd stEmpty "A" "xgboost" 2 false).1.mpr
    (Or.inl ⟨_, rfl⟩)

/-- Witness for C5 (amended): a concrete successful standard-path call for
2 days starting after rowA's date 10 yields points on days 11 and 12. -/
theorem predict_standard_forecast_shape_witness :
    ∃ r st', predict envStd stXgb "A" 2 "xgboost" false = .ok (r, st') ∧
      r.predictions.length = 2 ∧
      (r.predictions.getD 0 default).date = 11 ∧
      (r.predictions.getD 1 default).date = 12 := by
  cases hq : predict envStd stXgb "A" 2 "xgboost" false with
  | error e =>
    exfalso
    have hok : (predict envStd stXgb "A" 2 "xgboost" false).isOk = true := rfl
    rw [hq] at hok
    cases hok
  | ok p =>
    have h := predict_standard_forecast_shape envStd stXgb "A" "xgboost" 2
      p.1 p.2 (by rw [hq])
    refine ⟨p.1, p.2, rfl, h.1, ?_, ?_⟩
    · rw [h.2 0 (by omega)]
      rfl
    · rw [h.2 1 (by omega)]
      rfl

/-- Witness for C6 (amended): with a model that always raises and a
positive last value, the day-1 entry is a non-negative estimation. -/
theorem generate_standard_estimation_witness :
    ((generate_standard_predictions mFailAll [featPos] 2).getD 1
      default).estimation = true ∧
    0 ≤ ((generate_standard_predictions mFailAll [featPos] 2).getD 1
      default).new_cases := by
  have h := generate_standard_estimation mFailAll [featPos] 2 1 (by omega) rfl
  constructor
  · rw [h.2.1]
  · rw [h.2.1]
    exact h.2.2 (by norm_num [std_last_new, std_last_row, maxDate, maxDateZ, featPos])

/-- Witness for C8: requesting xgboost for Testland, whose registry has
only random_forest, makes the whole `predict` call fail. -/
theorem predict_fails_without_requested_kind_witness :
    ∃ e, predict envTest stRF "Testland" 3 "xgboost" false = .error e :=
  predict_fails_without_requested_kind envTest stRF "Testland" "xgboost" 3
    (by decide) (by decide) "random_forest" (by decide) (by decide)

/-- Witness for C9: country "A" has no enhanced-capable model, so the
enhanced call behaves like the plain call and reports the plain kind. -/
theorem predict_enhanced_degrades_witness :
    (predict envStd stXgb "A" 2 "xgboost" true).isOk =
      (predict envStd stXgb "A" 2 "xgboost" false).isOk ∧
    ∃ r st', predict envStd stXgb "A" 2 "xgboost" true = .ok (r, st') ∧
      r.model_used = "xgboost" := by
  have h := predict_enhanced_degrades envStd stXgb "A" "xgboost" 2 (by decide)
  refine ⟨h.1, ?_⟩
  cases hq : predict envStd stXgb "A" 2 "xgboost" true with
  | error e =>
    exfalso
    have hok : (predict envStd stXgb "A" 2 "xgboost" true).isOk = true := rfl
    rw [hq] at hok
    cases hok
  | ok p =>
    exact ⟨p.1, p.2, rfl, h.2 p.1 p.2 (by rw [hq])⟩

/-- Witness for C10: after loading the xgboost artifact for "A", a second
call returns the same artifact instance and leaves the state unchanged. -/
theorem get_model_idempotent_witness :
    get_model stXgbAfter "A" "xgboost" = .ok (artA, stXgbAfter) :=
  get_model_idempotent stXgb "A" "xgboost" artA stXgbAfter rfl
